import Mathlib

/-!
# Verification of the Go Command-pattern bank-account program

Shallow embedding of the program: accounts live on a heap (`Store`) mapping
account references to rational balances (the Go `float64` balances are
modelled as exact rationals, since the program performs only additions,
subtractions and comparisons).  Each Go method that can touch the heap is
translated as a function threading the `Store`.
-/

namespace GoCommand

/-- Account references: the Go program handles `*BankAccount` pointers;
distinct references model distinct account objects. -/
abbrev Ref := Nat

/-- The heap of account balances: Go `BankAccount.balance` for each account. -/
abbrev Store := Ref → ℚ

/-- Go: `var overdraftLimit = -500.0`. -/
def overdraftLimit : ℚ := -500

/-- Write balance `v` into account `r` of store `s`. -/
def setBal (s : Store) (r : Ref) (v : ℚ) : Store :=
  fun r' => if r' = r then v else s r'

namespace BankAccount

/-- Go: `func (account *BankAccount) Withdraw(amount float64) bool`.
Returns the updated store and the boolean result. -/
def Withdraw (s : Store) (account : Ref) (amount : ℚ) : Store × Bool :=
  if s account - amount < overdraftLimit then (s, false)
  else (setBal s account (s account - amount), true)

/-- Go: `func (account *BankAccount) Deposit(amount float64)`. -/
def Deposit (s : Store) (account : Ref) (amount : ℚ) : Store :=
  setBal s account (s account + amount)

end BankAccount

/-- Go: `type Action int` with constants `Deposit` and `Withdraw`. -/
inductive Action where
  | Deposit
  | Withdraw
deriving DecidableEq, Repr

/-- Go: `type BankAccountCommand struct { account *BankAccount; action Action;
amount float64; succeeded bool }`. -/
structure BankAccountCommand where
  account : Ref
  action : Action
  amount : ℚ
  succeeded : Bool
deriving DecidableEq, Repr

/-- The Go `Command` interface together with its three implementations:
`leaf` is a `*BankAccountCommand`, `composite` a
`*CompositeBankAccountCommand` (field `commands []Command`), and
`transfer` a `*MoneyTransferCommand` (embedded composite's `commands`
plus the `from`, `to`, `amount` fields). -/
inductive Command where
  | leaf : BankAccountCommand → Command
  | composite : List Command → Command
  | transfer : List Command → Ref → Ref → ℚ → Command

mutual

/-- Go: `Succeeded()`; on a leaf `func (c *BankAccountCommand) Succeeded()
bool { return c.succeeded }`, on a composite (and hence on a transfer, which
inherits it) the loop returning `false` at the first non-succeeded member. -/
def Command.Succeeded : Command → Bool
  | .leaf c => c.succeeded
  | .composite cmds => allSucceeded cmds
  | .transfer cmds _ _ _ => allSucceeded cmds
termination_by structural c => c

/-- The loop body of `CompositeBankAccountCommand.Succeeded`. -/
def allSucceeded : List Command → Bool
  | [] => true
  | c :: rest => if c.Succeeded then allSucceeded rest else false
termination_by structural cmds => cmds

end

mutual

/-- Go: `SetSucceeded(value bool)`; on a leaf it writes the flag, on a
composite (and transfer, which inherits it) it forwards to every member.
The store is threaded like for every method, so that the frame property
(the heap is untouched) is a theorem rather than a typing accident. -/
def Command.SetSucceeded : Command → Bool → Store → Command × Store
  | .leaf c, v, s => (.leaf { c with succeeded := v }, s)
  | .composite cmds, v, s =>
      let p := setSucceededList cmds v s
      (.composite p.1, p.2)
  | .transfer cmds f t a, v, s =>
      let p := setSucceededList cmds v s
      (.transfer p.1 f t a, p.2)
termination_by structural c => c

/-- The loop of `CompositeBankAccountCommand.SetSucceeded`. -/
def setSucceededList : List Command → Bool → Store → List Command × Store
  | [], _, s => ([], s)
  | c :: rest, v, s =>
      let p := Command.SetSucceeded c v s
      let q := setSucceededList rest v p.2
      (p.1 :: q.1, q.2)
termination_by structural cmds => cmds

end

mutual

/-- Go: `Call()`.  A leaf dispatches on its action
(`Deposit`: unconditional deposit, flag set true; `Withdraw`: flag set to
the boolean result).  The base composite calls every member in order.
`MoneyTransferCommand.Call` overrides it with the running-flag loop that
skips members after a failure, forcing their flags to false. -/
def Command.Call : Command → Store → Command × Store
  | .leaf c, s =>
      match c.action with
      | .Deposit =>
          (.leaf { c with succeeded := true }, BankAccount.Deposit s c.account c.amount)
      | .Withdraw =>
          let p := BankAccount.Withdraw s c.account c.amount
          (.leaf { c with succeeded := p.2 }, p.1)
  | .composite cmds, s =>
      let p := callList cmds s
      (.composite p.1, p.2)
  | .transfer cmds f t a, s =>
      let p := transferCallList cmds true s
      (.transfer p.1 f t a, p.2)
termination_by structural c => c

/-- The loop of `CompositeBankAccountCommand.Call`: every member's `Call`
is invoked, unconditionally. -/
def callList : List Command → Store → List Command × Store
  | [], s => ([], s)
  | c :: rest, s =>
      let p := Command.Call c s
      let q := callList rest p.2
      (p.1 :: q.1, q.2)
termination_by structural cmds => cmds

/-- The loop of `MoneyTransferCommand.Call`, with the running `succeded`
flag: while it is true, call the member and refresh the flag from the
member's `Succeeded()`; once false, only `SetSucceeded(false)` the member. -/
def transferCallList : List Command → Bool → Store → List Command × Store
  | [], _, s => ([], s)
  | c :: rest, succ, s =>
      if succ then
        let p := Command.Call c s
        let q := transferCallList rest p.1.Succeeded p.2
        (p.1 :: q.1, q.2)
      else
        let p := Command.SetSucceeded c false s
        let q := transferCallList rest false p.2
        (p.1 :: q.1, q.2)
termination_by structural cmds => cmds

end

mutual

/-- Go: `Undo()`.  A leaf is a no-op unless `succeeded`; otherwise it applies
the inverse primitive (undoing a `Deposit` calls `Withdraw`, whose boolean
result is discarded; undoing a `Withdraw` calls `Deposit`).  A composite
(and a transfer, which inherits it) undoes its members in reverse order.
No flag is ever modified, so only the store is returned. -/
def Command.Undo : Command → Store → Store
  | .leaf c, s =>
      if c.succeeded then
        match c.action with
        | .Deposit => (BankAccount.Withdraw s c.account c.amount).1
        | .Withdraw => BankAccount.Deposit s c.account c.amount
      else s
  | .composite cmds, s => undoList cmds s
  | .transfer cmds _ _ _, s => undoList cmds s
termination_by structural c => c

/-- The loop of `CompositeBankAccountCommand.Undo`: members are undone in
reverse order (the tail first, then the head). -/
def undoList : List Command → Store → Store
  | [], s => s
  | c :: rest, s => Command.Undo c (undoList rest s)
termination_by structural cmds => cmds

end

/-- Go: `func NewMoneyTransferCommand(from, to *BankAccount, amount float64)
*MoneyTransferCommand`: members are `[Withdraw(from, amount),
Deposit(to, amount)]`, flags zero-initialized to `false`. -/
def NewMoneyTransferCommand (fromAcct toAcct : Ref) (amount : ℚ) : Command :=
  .transfer
    [.leaf ⟨fromAcct, .Withdraw, amount, false⟩,
     .leaf ⟨toAcct, .Deposit, amount, false⟩]
    fromAcct toAcct amount

mutual

/-- Observation function for the frame property of `SetSucceeded`: erase
every `succeeded` flag, keeping accounts, actions, amounts and structure. -/
def stripFlags : Command → Command
  | .leaf c => .leaf { c with succeeded := false }
  | .composite cmds => .composite (stripFlagsList cmds)
  | .transfer cmds f t a => .transfer (stripFlagsList cmds) f t a
termination_by structural c => c

/-- `stripFlags` over a member list. -/
def stripFlagsList : List Command → List Command
  | [] => []
  | c :: rest => stripFlags c :: stripFlagsList rest
termination_by structural cmds => cmds

end


/-! ## Helper lemmas -/

theorem setBal_self (s : Store) (r : Ref) (v : ℚ) : setBal s r v r = v := by
  simp [setBal]

theorem setBal_other (s : Store) (r r' : Ref) (v : ℚ) (h : r' ≠ r) :
    setBal s r v r' = s r' := by
  simp [setBal, h]

mutual

theorem setSucceeded_store : ∀ (c : Command) (v : Bool) (s : Store),
    (Command.SetSucceeded c v s).2 = s
  | .leaf _, _, _ => rfl
  | .composite cmds, v, s => setSucceededList_store cmds v s
  | .transfer cmds _ _ _, v, s => setSucceededList_store cmds v s
termination_by structural c => c

theorem setSucceededList_store : ∀ (cmds : List Command) (v : Bool) (s : Store),
    (setSucceededList cmds v s).2 = s
  | [], _, _ => rfl
  | c :: rest, v, s => by
      have h1 := setSucceeded_store c v s
      have h2 := setSucceededList_store rest v (Command.SetSucceeded c v s).2
      simp [setSucceededList]
      rw [h2, h1]
termination_by structural cmds => cmds

end

/-- In the `MoneyTransferCommand.Call` loop, once the running flag is false
the store is never touched again (members are only `SetSucceeded false`). -/
theorem transferCallList_false_store : ∀ (cmds : List Command) (s : Store),
    (transferCallList cmds false s).2 = s
  | [], _ => rfl
  | c :: rest, s => by
      have h1 := setSucceeded_store c false s
      have h2 := transferCallList_false_store rest (Command.SetSucceeded c false s).2
      simp [transferCallList]
      rw [h2, h1]

/-- In the `MoneyTransferCommand.Call` loop, once the running flag is false
every remaining member ends up with `SetSucceeded false` applied. -/
theorem transferCallList_false_cmds : ∀ (cmds : List Command) (s : Store),
    (transferCallList cmds false s).1
      = (setSucceededList cmds false s).1
  | [], _ => rfl
  | c :: rest, s => by
      have h2 := transferCallList_false_cmds rest (Command.SetSucceeded c false s).2
      simp [transferCallList, setSucceededList]
      rw [h2]

/-- The base composite `Call` threads the store through every member's
`Call`, unconditionally: the final store is the left fold of member calls. -/
theorem callList_store_foldl : ∀ (cmds : List Command) (s : Store),
    (callList cmds s).2 = cmds.foldl (fun st c => (Command.Call c st).2) s
  | [], _ => rfl
  | c :: rest, s => by
      have h := callList_store_foldl rest (Command.Call c s).2
      simp [callList]
      rw [h]

theorem allSucceeded_iff : ∀ cmds : List Command,
    allSucceeded cmds = true ↔ ∀ c ∈ cmds, Command.Succeeded c = true
  | [] => by simp [allSucceeded]
  | c :: rest => by
      have h := allSucceeded_iff rest
      by_cases hc : Command.Succeeded c = true <;>
        simp [allSucceeded, hc, h]

mutual

theorem setSucceeded_stripFlags : ∀ (c : Command) (v : Bool) (s : Store),
    stripFlags (Command.SetSucceeded c v s).1 = stripFlags c
  | .leaf _, _, _ => rfl
  | .composite cmds, v, s => by
      simp [Command.SetSucceeded, stripFlags]
      exact setSucceededList_stripFlags cmds v s
  | .transfer cmds f t a, v, s => by
      simp [Command.SetSucceeded, stripFlags]
      exact setSucceededList_stripFlags cmds v s
termination_by structural c => c

theorem setSucceededList_stripFlags : ∀ (cmds : List Command) (v : Bool) (s : Store),
    stripFlagsList (setSucceededList cmds v s).1 = stripFlagsList cmds
  | [], _, _ => rfl
  | c :: rest, v, s => by
      simp [setSucceededList, stripFlagsList]
      exact ⟨setSucceeded_stripFlags c v s, setSucceededList_stripFlags rest v _⟩
termination_by structural cmds => cmds

end

/-! ## Claim theorems -/

/-- C4.  Withdraw postcondition: for an account with balance `B = s r` and a
withdrawal amount `A = a`, `Withdraw` returns `true` and the balance becomes
`B - A` if and only if `B - A >= overdraftLimit`; otherwise the whole store
is unchanged and the call returns `false`. -/
theorem withdraw_postcondition (s : Store) (r : Ref) (a : ℚ) :
    (((BankAccount.Withdraw s r a).2 = true ∧ (BankAccount.Withdraw s r a).1 r = s r - a)
      ↔ overdraftLimit ≤ s r - a)
    ∧ (¬ overdraftLimit ≤ s r - a →
        (BankAccount.Withdraw s r a).1 = s ∧ (BankAccount.Withdraw s r a).2 = false) := by
  constructor
  · by_cases h : s r - a < overdraftLimit
    · simp [BankAccount.Withdraw, h, setBal]
    · simp [BankAccount.Withdraw, h, setBal]
      linarith
  · intro hn
    have h : s r - a < overdraftLimit := not_le.mp hn
    simp [BankAccount.Withdraw, h]

/-- Witness for C4: with balance 700 and amount 2000 the withdrawal is
rejected and the store is untouched. -/
theorem withdraw_postcondition_witness :
    (BankAccount.Withdraw (fun _ => (700 : ℚ)) 0 2000).1 = (fun _ => (700 : ℚ))
    ∧ (BankAccount.Withdraw (fun _ => (700 : ℚ)) 0 2000).2 = false :=
  (withdraw_postcondition (fun _ => (700 : ℚ)) 0 2000).2 (by norm_num [overdraftLimit])

/-- C6.  Undo-after-failure is a no-op: a leaf command whose `succeeded`
flag is `false` leaves every account balance unchanged on `Undo()`. -/
theorem leaf_undo_after_failure (c : BankAccountCommand) (s : Store)
    (h : c.succeeded = false) : Command.Undo (.leaf c) s = s := by
  simp [Command.Undo, h]

/-- Witness for C6: a failed withdrawal command undoes to the same store. -/
theorem leaf_undo_after_failure_witness :
    Command.Undo (.leaf ⟨0, Action.Withdraw, 2000, false⟩) (fun _ => (700 : ℚ))
      = (fun _ => (700 : ℚ)) :=
  leaf_undo_after_failure ⟨0, Action.Withdraw, 2000, false⟩ (fun _ => (700 : ℚ)) rfl

/-- C8.  Composite success aggregation: `Succeeded()` of a composite is true
iff every member's `Succeeded()` is true, and it is true for the empty
member sequence. -/
theorem composite_succeeded_iff :
    (∀ cmds : List Command,
        Command.Succeeded (.composite cmds) = true ↔ ∀ c ∈ cmds, Command.Succeeded c = true)
    ∧ Command.Succeeded (.composite []) = true := by
  refine ⟨fun cmds => ?_, rfl⟩
  simpa [Command.Succeeded] using allSucceeded_iff cmds

/-- Witness for C8: a singleton composite over one succeeded leaf reports
success. -/
theorem composite_succeeded_iff_witness :
    Command.Succeeded (.composite [.leaf ⟨0, Action.Deposit, 5, true⟩]) = true :=
  (composite_succeeded_iff.1 _).mpr (by
    intro c hc
    simp only [List.mem_singleton] at hc
    subst hc
    rfl)

/-- C9.  Frame property of `SetSucceeded`: for every command (leaf,
composite or transfer) and boolean `v`, `SetSucceeded v` leaves the heap of
balances untouched and changes only `succeeded` flags (the flag-erased
command is unchanged). -/
theorem setSucceeded_frame :
    ∀ (cmd : Command) (v : Bool) (s : Store),
      (Command.SetSucceeded cmd v s).2 = s
      ∧ stripFlags (Command.SetSucceeded cmd v s).1 = stripFlags cmd :=
  fun cmd v s => ⟨setSucceeded_store cmd v s, setSucceeded_stripFlags cmd v s⟩

/-- C10.  Overdraft-floor postcondition of `Withdraw`: whenever it mutates
the balance (returns `true`), the new balance is at least `overdraftLimit`;
and `Deposit` performs no check at all, so a negative deposit can drive a
balance below the floor (balance 0, deposit of -600). -/
theorem withdraw_floor_deposit_unchecked :
    (∀ (s : Store) (r : Ref) (a : ℚ), (BankAccount.Withdraw s r a).2 = true →
        overdraftLimit ≤ (BankAccount.Withdraw s r a).1 r)
    ∧ BankAccount.Deposit (fun _ => (0 : ℚ)) 0 (-600) 0 < overdraftLimit := by
  constructor
  · intro s r a h
    by_cases hlt : s r - a < overdraftLimit
    · simp [BankAccount.Withdraw, hlt] at h
    · simp [BankAccount.Withdraw, hlt, setBal]
      linarith
  · norm_num [BankAccount.Deposit, setBal, overdraftLimit]

/-- Witness for C10: a successful withdrawal of 200 from balance 1000 keeps
the balance above the overdraft floor. -/
theorem withdraw_floor_witness :
    overdraftLimit ≤ (BankAccount.Withdraw (fun _ => (1000 : ℚ)) 0 200).1 0 :=
  withdraw_floor_deposit_unchecked.1 (fun _ => (1000 : ℚ)) 0 200
    (by norm_num [BankAccount.Withdraw, overdraftLimit])

/-- C1.  Transfer atomicity on failure: if withdrawing `a` would drive the
source balance below `overdraftLimit`, then after `Call()` the whole store
(hence both balances) is unchanged, both legs carry a `false` flag (the
deposit leg was never executed, only `SetSucceeded(false)`), and
`Succeeded()` is `false`. -/
theorem transfer_atomic_on_failure (s : Store) (f t : Ref) (a : ℚ)
    (h : s f - a < overdraftLimit) :
    Command.Call (NewMoneyTransferCommand f t a) s
      = (Command.transfer
          [.leaf ⟨f, .Withdraw, a, false⟩, .leaf ⟨t, .Deposit, a, false⟩] f t a, s)
    ∧ Command.Succeeded (Command.Call (NewMoneyTransferCommand f t a) s).1 = false := by
  constructor <;>
    simp [NewMoneyTransferCommand, Command.Call, transferCallList, Command.SetSucceeded,
      BankAccount.Withdraw, h, Command.Succeeded, allSucceeded]

/-- Witness for C1: transferring 2000 from a balance of 700 fails and leaves
the store untouched. -/
theorem transfer_atomic_on_failure_witness :
    Command.Call (NewMoneyTransferCommand 0 1 2000) (fun r => if r = 0 then (700 : ℚ) else 800)
      = (Command.transfer
          [.leaf ⟨0, .Withdraw, 2000, false⟩, .leaf ⟨1, .Deposit, 2000, false⟩] 0 1 2000,
         fun r => if r = 0 then (700 : ℚ) else 800)
    ∧ Command.Succeeded (Command.Call (NewMoneyTransferCommand 0 1 2000)
        (fun r => if r = 0 then (700 : ℚ) else 800)).1 = false :=
  transfer_atomic_on_failure (fun r => if r = 0 then (700 : ℚ) else 800) 0 1 2000
    (by norm_num [overdraftLimit])

/-- C2.  Transfer success path: for distinct accounts, if the withdrawal leg
succeeds, after `Call()` the source balance has decreased by `a`, the
destination balance has increased by `a`, and `Succeeded()` is `true`. -/
theorem transfer_success_path (s : Store) (f t : Ref) (a : ℚ) (hft : f ≠ t)
    (h : overdraftLimit ≤ s f - a) :
    (Command.Call (NewMoneyTransferCommand f t a) s).2 f = s f - a
    ∧ (Command.Call (NewMoneyTransferCommand f t a) s).2 t = s t + a
    ∧ Command.Succeeded (Command.Call (NewMoneyTransferCommand f t a) s).1 = true := by
  have h' : ¬ (s f - a < overdraftLimit) := not_lt.mpr h
  have htf : t ≠ f := Ne.symm hft
  simp [NewMoneyTransferCommand, Command.Call, transferCallList, BankAccount.Withdraw, h',
    BankAccount.Deposit, Command.Succeeded, allSucceeded, setBal, hft, htf]

/-- Witness for C2: transferring 300 from balance 1000 to balance 500 gives
700 and 800 and reports success. -/
theorem transfer_success_path_witness :
    (Command.Call (NewMoneyTransferCommand 0 1 300)
        (fun r => if r = 0 then (1000 : ℚ) else 500)).2 0
      = (fun r => if r = 0 then (1000 : ℚ) else 500) 0 - 300
    ∧ (Command.Call (NewMoneyTransferCommand 0 1 300)
        (fun r => if r = 0 then (1000 : ℚ) else 500)).2 1
      = (fun r => if r = 0 then (1000 : ℚ) else 500) 1 + 300
    ∧ Command.Succeeded (Command.Call (NewMoneyTransferCommand 0 1 300)
        (fun r => if r = 0 then (1000 : ℚ) else 500)).1 = true :=
  transfer_success_path (fun r => if r = 0 then (1000 : ℚ) else 500) 0 1 300
    (by decide) (by norm_num [overdraftLimit])

/-- C3, counterexample.  The transfer undo round-trip fails as universally
stated: with source balance 1000, destination balance -600 (below the
overdraft floor, as the constructor and `Deposit` allow) and amount 100, the
transfer succeeds but `Undo()` leaves the destination at -500, not -600,
because the deposit-undo withdrawal is rejected by the overdraft floor. -/
theorem transfer_undo_roundtrip_cex :
    Command.Succeeded (Command.Call (NewMoneyTransferCommand 0 1 100)
        (fun r => if r = 1 then (-600 : ℚ) else 1000)).1 = true
    ∧ Command.Undo (Command.Call (NewMoneyTransferCommand 0 1 100)
          (fun r => if r = 1 then (-600 : ℚ) else 1000)).1
        (Command.Call (NewMoneyTransferCommand 0 1 100)
          (fun r => if r = 1 then (-600 : ℚ) else 1000)).2 1
      ≠ (fun r => if r = 1 then (-600 : ℚ) else 1000) 1 := by
  constructor <;>
    norm_num [NewMoneyTransferCommand, Command.Call, transferCallList, Command.Succeeded,
      allSucceeded, BankAccount.Withdraw, BankAccount.Deposit, setBal, Command.Undo,
      undoList, overdraftLimit]

/-- C3, amended.  Transfer undo round-trip: for every pair of accounts,
after a successful `Call()` (the withdrawal leg satisfies the overdraft
floor), `Undo()` restores every balance to its pre-`Call()` value, provided
that the two accounts coincide or the destination's pre-transfer balance is
itself at least `overdraftLimit` (otherwise the deposit-undo withdrawal is
rejected, see the counterexample). -/
theorem transfer_undo_roundtrip (s : Store) (f t : Ref) (a : ℚ)
    (hw : overdraftLimit ≤ s f - a) (hor : f = t ∨ overdraftLimit ≤ s t) :
    ∀ r : Ref,
      Command.Undo (Command.Call (NewMoneyTransferCommand f t a) s).1
        (Command.Call (NewMoneyTransferCommand f t a) s).2 r = s r := by
  intro r
  have h1 : ¬ (s f - a < overdraftLimit) := not_lt.mpr hw
  by_cases hft : f = t
  · subst hft
    simp [NewMoneyTransferCommand, Command.Call, transferCallList, Command.Succeeded,
      BankAccount.Withdraw, BankAccount.Deposit, h1, setBal, Command.Undo,
      undoList, allSucceeded]
    split_ifs <;> simp_all
  · have hto : overdraftLimit ≤ s t := hor.resolve_left hft
    have htf : t ≠ f := Ne.symm hft
    have h2 : ¬ (s t < overdraftLimit) := not_lt.mpr hto
    simp [NewMoneyTransferCommand, Command.Call, transferCallList, Command.Succeeded,
      BankAccount.Withdraw, BankAccount.Deposit, h1, h2, setBal, htf, hft, Command.Undo,
      undoList, allSucceeded]
    split_ifs <;> simp_all

/-- Witness for C3 (amended): the 300 transfer from 1000 to 500 undoes back
to 1000 on the source account. -/
theorem transfer_undo_roundtrip_witness :
    Command.Undo (Command.Call (NewMoneyTransferCommand 0 1 300)
        (fun r => if r = 0 then (1000 : ℚ) else 500)).1
      (Command.Call (NewMoneyTransferCommand 0 1 300)
        (fun r => if r = 0 then (1000 : ℚ) else 500)).2 0
      = (fun r => if r = 0 then (1000 : ℚ) else 500) 0 :=
  transfer_undo_roundtrip (fun r => if r = 0 then (1000 : ℚ) else 500) 0 1 300
    (by norm_num [overdraftLimit]) (Or.inr (by norm_num [overdraftLimit])) 0

/-- C5.  Leaf undo-after-success round-trip: a leaf command whose `Call()`
succeeded is undone back to the pre-`Call()` balances, provided (for a
Deposit command) that the post-deposit balance minus the amount still
satisfies the overdraft floor. -/
theorem leaf_call_undo_roundtrip (c : BankAccountCommand) (s : Store)
    (hsucc : Command.Succeeded (Command.Call (.leaf c) s).1 = true)
    (hdep : c.action = Action.Deposit →
        overdraftLimit ≤ (s c.account + c.amount) - c.amount) :
    ∀ r : Ref,
      Command.Undo (Command.Call (.leaf c) s).1 (Command.Call (.leaf c) s).2 r = s r := by
  obtain ⟨acct, act, amt, flag⟩ := c
  cases act with
  | Deposit =>
      have hd : overdraftLimit ≤ s acct + amt - amt := hdep rfl
      have hnl : ¬ (s acct < overdraftLimit) := by
        intro hlt
        rw [add_sub_cancel_right] at hd
        exact absurd hd (not_le.mpr hlt)
      intro r
      simp [Command.Call, Command.Undo, BankAccount.Deposit, BankAccount.Withdraw, setBal, hnl]
      split_ifs with hr
      · rw [hr]
      · rfl
  | Withdraw =>
      have hw : (BankAccount.Withdraw s acct amt).2 = true := by
        simpa [Command.Call, Command.Succeeded] using hsucc
      have hnl : ¬ (s acct - amt < overdraftLimit) := by
        intro hlt
        simp [BankAccount.Withdraw, hlt] at hw
      intro r
      simp [Command.Call, Command.Undo, BankAccount.Deposit, BankAccount.Withdraw, setBal, hnl]
      split_ifs with hr
      · rw [hr]
      · rfl

/-- Witness for C5: depositing 200 on balance 1000 and undoing returns the
balance to 1000. -/
theorem leaf_call_undo_roundtrip_witness :
    Command.Undo
        (Command.Call (.leaf ⟨0, Action.Deposit, 200, false⟩) (fun _ => (1000 : ℚ))).1
        (Command.Call (.leaf ⟨0, Action.Deposit, 200, false⟩) (fun _ => (1000 : ℚ))).2 0
      = (fun _ => (1000 : ℚ)) 0 :=
  leaf_call_undo_roundtrip ⟨0, Action.Deposit, 200, false⟩ (fun _ => (1000 : ℚ))
    (by simp [Command.Call, Command.Succeeded])
    (fun _ => by norm_num [overdraftLimit]) 0

/-- C7.  The base composite does not short-circuit: its `Call()` threads the
store through every member's own `Call()` in insertion order,
unconditionally (a left fold over the member list); the
`MoneyTransferCommand` specialization, in contrast, stops executing members
as soon as one fails (the store after its `Call()` is the store right after
the failing member). -/
theorem composite_no_short_circuit_transfer_skips :
    (∀ (cmds : List Command) (s : Store),
        (Command.Call (.composite cmds) s).2
          = cmds.foldl (fun st c => (Command.Call c st).2) s)
    ∧ ∀ (c : Command) (rest : List Command) (f t : Ref) (a : ℚ) (s : Store),
        Command.Succeeded (Command.Call c s).1 = false →
        (Command.Call (.transfer (c :: rest) f t a) s).2 = (Command.Call c s).2 := by
  constructor
  · intro cmds s
    simpa [Command.Call] using callList_store_foldl cmds s
  · intro c rest f t a s hfail
    simp [Command.Call, transferCallList, hfail]
    exact transferCallList_false_store rest _

/-- Witness for C7: the base composite over a failing withdrawal and a
deposit still runs the deposit, while the transfer over the same members
leaves the store exactly as after the failing withdrawal. -/
theorem composite_no_short_circuit_transfer_skips_witness :
    (Command.Call
        (.composite [.leaf ⟨0, Action.Withdraw, 2000, false⟩,
                     .leaf ⟨1, Action.Deposit, 2000, false⟩])
        (fun r => if r = 0 then (700 : ℚ) else 800)).2
      = [Command.leaf ⟨0, Action.Withdraw, 2000, false⟩,
         Command.leaf ⟨1, Action.Deposit, 2000, false⟩].foldl
          (fun st c => (Command.Call c st).2) (fun r => if r = 0 then (700 : ℚ) else 800)
    ∧ (Command.Call
        (.transfer [.leaf ⟨0, Action.Withdraw, 2000, false⟩,
                    .leaf ⟨1, Action.Deposit, 2000, false⟩] 0 1 2000)
        (fun r => if r = 0 then (700 : ℚ) else 800)).2
      = (Command.Call (.leaf ⟨0, Action.Withdraw, 2000, false⟩)
          (fun r => if r = 0 then (700 : ℚ) else 800)).2 :=
  ⟨composite_no_short_circuit_transfer_skips.1 _ _,
   composite_no_short_circuit_transfer_skips.2
     (.leaf ⟨0, Action.Withdraw, 2000, false⟩) [.leaf ⟨1, Action.Deposit, 2000, false⟩]
     0 1 2000 (fun r => if r = 0 then (700 : ℚ) else 800)
     (by norm_num [Command.Call, Command.Succeeded, BankAccount.Withdraw, overdraftLimit])⟩

end GoCommand
